import Mathlib

/-!
# Terratest helpers: `modules/gcp/storage.go` and `modules/terraform/destroy.go`

A shallow embedding of the Go helpers.  Go values are modelled as follows.

* A Go `error` is `error = Option GoError`; `nil` is `none`.
* A function that ends by `return v` yields `Outcome.returned v`; `t.Fatal(err)`
  stops the calling test and yields `Outcome.fatal err`; a nil pointer
  dereference yields `Outcome.panicked`; a function with a result type whose
  body reaches its closing brace without a `return` yields `Outcome.noReturn`.
* The Google Cloud Storage SDK and the terraform binary are external: they are
  parameters (`gcp.SDK`, `terraform.Binary`).  Every call made to them is
  appended to a trace, so that "how many calls were made" is observable.
* `*testing.T` is not threaded: its only uses are `t.Fatal` (the `fatal`
  outcome) and logging through `logger.Logf` (a `Logf` event of the trace).
* A function that is called but is neither in the sources nor part of the SDK
  is a parameter: `log.Logf` on line 83 of `storage.go`, and the `E` form each
  non-`E` helper calls, so that the helper is specified for every way its `E`
  form can end.
-/

namespace Terratest

/-- Go error values: `iterator.Done`, the package variable `ErrBucketNotFound`
(`errors.New("Bucket not found")`), and any other error of the SDK or of the
external command, told apart by its message. -/
inductive GoError
  | Done
  | ErrBucketNotFound
  | sdk (msg : String)
  deriving DecidableEq

/-- The Go interface type `error`; `none` is `nil`. -/
abbrev error := Option GoError

/-- How a call of a Go function ends. -/
inductive Outcome (α : Type)
  | returned (v : α)
  | fatal (e : GoError)
  | panicked
  | noReturn
  deriving DecidableEq

/-- The convention of every non-`E` helper (`x, err := fE(...)`, then
`if err != nil { t.Fatal(err) }`, then `return x`), applied to the way the `E`
form ended. -/
def failOnError {α : Type} : Outcome (α × error) → Outcome α
  | .returned (_, some err) => .fatal err
  | .returned (x, none) => .returned x
  | .fatal e => .fatal e
  | .panicked => .panicked
  | .noReturn => .noReturn

/-! ## Package `terraform` -/

namespace terraform

/-- Modelled from the spec: the type `Options` is not among the sources; the spec
calls it "a configuration value bundle (provisioning options: variable map,
working directory, etc.)".  `Vars` lists the entries of the Go map. -/
structure Options where
  Vars : List (String × String)
  TerraformDir : String
  deriving DecidableEq

/-- One execution of the external provisioning binary. -/
structure Invocation where
  options : Options
  args : List String
  deriving DecidableEq

/-- The external provisioning binary: for a configuration bundle and an argument
list, the combined stdout/stderr text and the error of a non-zero exit. -/
abbrev Binary := Options → List String → String × error

/-- Modelled from the spec: `FormatArgs` is not among the sources.  The spec says
the argument list is built "by concatenating a fixed subcommand name, fixed
flags, and variable assignments derived from the configuration bundle", with "a
variable flag per entry".  The text of one variable flag is not fixed by the
spec: `varFlag key value` is the arguments standing for one entry. -/
def FormatArgs (varFlag : String → String → List String)
    (customVars : List (String × String)) (args : List String) : List String :=
  args ++ (customVars.map (fun kv => varFlag kv.1 kv.2)).flatten

/-- Modelled from the spec: `RunTerraformCommandE` is not among the sources.  The
spec says it "executes the external binary once, returning combined standard
output/error text"; a non-zero exit "surfaces as an error". -/
def RunTerraformCommandE (bin : Binary) (options : Options) (args : List String)
    (trace : List Invocation) : Outcome (String × error) × List Invocation :=
  (.returned (bin options args), trace ++ [⟨options, args⟩])

/-- Go `DestroyE` (destroy.go, lines 17-19). -/
def DestroyE (bin : Binary) (varFlag : String → String → List String) (options : Options)
    (trace : List Invocation) : Outcome (String × error) × List Invocation :=
  RunTerraformCommandE bin options
    (FormatArgs varFlag options.Vars ["destroy", "-force", "-input=false", "-lock=false"]) trace

/-- Go `Destroy` (destroy.go, lines 8-14).  The `E` form called on line 9 is the
parameter `destroyE`; the helper of the source is `Destroy (DestroyE bin varFlag)`. -/
def Destroy (destroyE : Options → List Invocation → Outcome (String × error) × List Invocation)
    (options : Options) (trace : List Invocation) : Outcome String × List Invocation :=
  let r := destroyE options trace
  (failOnError r.1, r.2)

end terraform

/-! ## Package `gcp` -/

namespace gcp

/-- A byte. -/
abbrev Byte := Fin 256

/-- The fields of `storage.BucketAttrs` the helpers read.  `Labels` lists the
entries of the Go map; `Labels[key]` is `Labels.lookup key`. -/
structure BucketAttrs where
  Name : String
  Labels : List (String × String)
  deriving DecidableEq

/-- What is left of a `*storage.BucketIterator`: the results its coming calls of
`Next` give, in order (`.ok attrs` a bucket, `.error e` an error `e`); once the
list is used up `Next` reports `iterator.Done`. -/
abbrev BucketIterator := List (Except GoError BucketAttrs)

/-- SDK `(*BucketIterator).Next`: the pair `(bucketAttrs, err)` and the iterator
afterwards.  The attributes are nil whenever the error is not. -/
def BucketIterator.Next : BucketIterator → (Option BucketAttrs × error) × BucketIterator
  | [] => ((none, some .Done), [])
  | .ok attrs :: rest => ((some attrs, none), rest)
  | .error e :: rest => ((none, some e), rest)

/-- A `*storage.Reader`: the chunks its reads deliver, then `io.EOF`
(`failure = none`) or a read error. -/
structure Reader where
  chunks : List (List Byte)
  failure : error
  deriving DecidableEq

/-- Standard library `(*bytes.Buffer).ReadFrom`: appends what the reader delivers
until `io.EOF` (the error returned is nil) or until a read fails (that error is
returned).  The result is the buffer afterwards and the error. -/
def Buffer.ReadFrom (buf : List Byte) : List (List Byte) → error → List Byte × error
  | [], failure => (buf, failure)
  | chunk :: rest, failure => Buffer.ReadFrom (buf ++ chunk) rest failure

/-- The calls a helper makes to the SDK and to the logger (`Logf` is
`logger.Logf`), and the call `log.Logf` of line 83 (`LogLogf`). -/
inductive Event
  | NewClient
  | Buckets (project : String)
  | Next
  | NewReader (bucket key : String)
  | ReadFrom
  | Create (bucket project : String)
  | Delete (bucket : String)
  | Attrs (bucket : String)
  | Logf (format : String) (args : List String)
  | LogLogf (format : String) (args : List String)
  deriving DecidableEq

/-- The storage service as the SDK shows it, over a service state `σ`. -/
structure SDK (σ : Type) where
  NewClient : σ → error
  Buckets : σ → String → BucketIterator
  NewReader : σ → String → String → Except GoError Reader
  Create : σ → String → String → error × σ
  Delete : σ → String → error × σ
  Attrs : σ → String → Except GoError BucketAttrs

/-- The service state together with the calls made so far. -/
structure World (σ : Type) where
  state : σ
  trace : List Event

/-- Append one call to the trace. -/
def World.record {σ : Type} (w : World σ) (ev : Event) : World σ :=
  { w with trace := w.trace ++ [ev] }

/-- Go `NewStorageClientE` (storage.go, lines 165-172).  The client handle holds
no data of its own, so only the error is kept. -/
def NewStorageClientE {σ : Type} (sdk : SDK σ) (w : World σ) : error × World σ :=
  match sdk.NewClient w.state with
  | some err => (some err, w.record .NewClient)
  | none => (none, w.record .NewClient)

/-- Lines 36-41 of `FindStorageBucketWithLabelE`, run after each `Next`:

    if err = iterator.Done { break }
    if err != nil { return "", err }

Line 36 is the assignment `err = iterator.Done`, not the comparison
`err == iterator.Done`: whatever `Next` reported, `err` is `iterator.Done`
afterwards.  Go gives an assignment no truth value; `assignCond` is the value
the `if` of line 36 takes.  `break` leads to line 52,
`return "", ErrBucketNotFound`.  `body` is lines 42-50. -/
def FindStorageBucketWithLabelE.check {σ : Type} (assignCond : Bool) (w : World σ)
    (body : Outcome (String × error) × World σ) : Outcome (String × error) × World σ :=
  let err : error := some .Done
  if assignCond then (.returned ("", some .ErrBucketNotFound), w)
  else if err ≠ none then (.returned ("", err), w)
  else body

set_option linter.unusedVariables false in
/-- The `for` loop of `FindStorageBucketWithLabelE` (storage.go, lines 34-51) and
the `return` of line 52, over what is left of the iterator.  When `Next` gives
nil attributes, line 42 (`bucketAttrs.Labels[key]`) dereferences nil. -/
def FindStorageBucketWithLabelE.loop {σ : Type} (assignCond : Bool) (key value : String)
    (bucketIterator : BucketIterator) (w : World σ) : Outcome (String × error) × World σ :=
  match h : bucketIterator.Next with
  | ((none, _), _) =>
    FindStorageBucketWithLabelE.check assignCond (w.record .Next) (.panicked, w.record .Next)
  | ((some bucketAttrs, _), rest) =>
    FindStorageBucketWithLabelE.check assignCond (w.record .Next)
      (match bucketAttrs.Labels.lookup key with
       | none => FindStorageBucketWithLabelE.loop assignCond key value rest (w.record .Next)
       | some val =>
         if val = value then
           (.returned (bucketAttrs.Name, none),
            (w.record .Next).record
              (.Logf "Found Storage bucket %s with label %s=%s" [bucketAttrs.Name, key, value]))
         else FindStorageBucketWithLabelE.loop assignCond key value rest (w.record .Next))
termination_by bucketIterator.length
decreasing_by
  all_goals
    cases bucketIterator with
    | nil => simp [BucketIterator.Next] at h
    | cons item tail =>
      cases item with
      | error e => simp [BucketIterator.Next] at h
      | ok attrs =>
        simp only [BucketIterator.Next, Prod.mk.injEq] at h
        rw [← h.2]
        simp

/-- Go `FindStorageBucketWithLabelE` (storage.go, lines 26-53). -/
def FindStorageBucketWithLabelE {σ : Type} (assignCond : Bool) (sdk : SDK σ) (w : World σ)
    (project key value : String) : Outcome (String × error) × World σ :=
  match NewStorageClientE sdk w with
  | (some err, w1) => (.returned ("", some err), w1)
  | (none, w1) =>
    FindStorageBucketWithLabelE.loop assignCond key value (sdk.Buckets w1.state project)
      (w1.record (.Buckets project))

/-- Go `FindStorageBucketWithLabel` (storage.go, lines 17-23).  The `E` form called
on line 18 is the parameter `findE`; the helper of the source is
`FindStorageBucketWithLabel (FindStorageBucketWithLabelE assignCond sdk)`. -/
def FindStorageBucketWithLabel {σ : Type}
    (findE : World σ → String → String → String → Outcome (String × error) × World σ)
    (w : World σ) (project key value : String) : Outcome String × World σ :=
  let r := findE w project key value
  (failOnError r.1, r.2)

/-- Go `GetStorageObjectContentsE` (storage.go, lines 65-86).  The contents are a
Go string, that is a sequence of bytes; `""` is `[]`.

Line 83 calls `log.Logf`, and the file neither imports nor declares a `log` (the
other helpers log through `logger.Logf`).  What that call does is not in the
sources: `logLogf format args` is the way it ends, and the `return contents, nil`
of line 85 is reached only when it returns. -/
def GetStorageObjectContentsE {σ : Type} (logLogf : String → List String → Outcome Unit)
    (sdk : SDK σ) (w : World σ) (bucket key : String) : Outcome (List Byte × error) × World σ :=
  match NewStorageClientE sdk w with
  | (some err, w1) => (.returned ([], some err), w1)
  | (none, w1) =>
    match sdk.NewReader w1.state bucket key with
    | .error err => (.returned ([], some err), w1.record (.NewReader bucket key))
    | .ok reader =>
      match Buffer.ReadFrom [] reader.chunks reader.failure with
      | (_, some err) =>
        (.returned ([], some err), (w1.record (.NewReader bucket key)).record .ReadFrom)
      | (contents, none) =>
        match logLogf "Read contents from Storage Bucket: %s, %s" [bucket, key] with
        | .returned _ =>
          (.returned (contents, none),
           ((w1.record (.NewReader bucket key)).record .ReadFrom).record
             (.LogLogf "Read contents from Storage Bucket: %s, %s" [bucket, key]))
        | .fatal e =>
          (.fatal e,
           ((w1.record (.NewReader bucket key)).record .ReadFrom).record
             (.LogLogf "Read contents from Storage Bucket: %s, %s" [bucket, key]))
        | .panicked =>
          (.panicked,
           ((w1.record (.NewReader bucket key)).record .ReadFrom).record
             (.LogLogf "Read contents from Storage Bucket: %s, %s" [bucket, key]))
        | .noReturn =>
          (.noReturn,
           ((w1.record (.NewReader bucket key)).record .ReadFrom).record
             (.LogLogf "Read contents from Storage Bucket: %s, %s" [bucket, key]))

/-- Go `GetStorageObjectContents` (storage.go, lines 56-62).  The `E` form called on
line 57 is the parameter `getE`; the helper of the source is
`GetStorageObjectContents (GetStorageObjectContentsE logLogf sdk)`. -/
def GetStorageObjectContents {σ : Type}
    (getE : World σ → String → String → Outcome (List Byte × error) × World σ)
    (w : World σ) (bucket key : String) : Outcome (List Byte) × World σ :=
  let r := getE w bucket key
  (failOnError r.1, r.2)

/-- Go `CreateStorageBucketE` (storage.go, lines 97-110). -/
def CreateStorageBucketE {σ : Type} (sdk : SDK σ) (w : World σ) (project bucket : String) :
    Outcome error × World σ :=
  let w0 := w.record (.Logf "Creating bucket %s" [bucket])
  match NewStorageClientE sdk w0 with
  | (some err, w1) => (.returned (some err), w1)
  | (none, w1) =>
    let r := sdk.Create w1.state bucket project
    (.returned r.1, { state := r.2, trace := w1.trace ++ [.Create bucket project] })

/-- Go `DeleteStorageBucketE` (storage.go, lines 121-131). -/
def DeleteStorageBucketE {σ : Type} (sdk : SDK σ) (w : World σ) (name : String) :
    Outcome error × World σ :=
  let w0 := w.record (.Logf "Deleting bucket %s" [name])
  match NewStorageClientE sdk w0 with
  | (some err, w1) => (.returned (some err), w1)
  | (none, w1) =>
    let r := sdk.Delete w1.state name
    (.returned r.1, { state := r.2, trace := w1.trace ++ [.Delete name] })

/-- Go `AssertStorageBucketExistsE` (storage.go, lines 142-152).  After the client
is obtained the body is `_, err = bucketHandle.Attrs(...)` and then the closing
brace: the error of `Attrs` is stored in `err` and no `return` follows. -/
def AssertStorageBucketExistsE {σ : Type} (sdk : SDK σ) (w : World σ) (name : String) :
    Outcome error × World σ :=
  match NewStorageClientE sdk w with
  | (some err, w1) => (.returned (some err), w1)
  | (none, w1) =>
    let _err : error :=
      match sdk.Attrs w1.state name with
      | .error e => some e
      | .ok _ => none
    (.noReturn, w1.record (.Attrs name))

/-- Go `AssertStorageBucketExists` (storage.go, lines 134-139): `t.Fatal(err)` when
the `E` form gives an error, nothing otherwise. -/
def AssertStorageBucketExists {σ : Type} (sdk : SDK σ) (w : World σ) (name : String) :
    Outcome Unit × World σ :=
  match AssertStorageBucketExistsE sdk w name with
  | (.returned (some err), w1) => (.fatal err, w1)
  | (.returned none, w1) => (.returned (), w1)
  | (.fatal e, w1) => (.fatal e, w1)
  | (.panicked, w1) => (.panicked, w1)
  | (.noReturn, w1) => (.noReturn, w1)

/-- The storage service as a set of existing bucket names: the names, and the
error (if any) that creating a client gives. -/
structure Service where
  clientErr : error
  existing : List String
  deriving DecidableEq

/-- The SDK over `Service`: `Create` adds the name (and fails on a name that
exists), `Delete` removes it (and fails on a name that does not exist), `Attrs`
fails exactly when the name is absent.  Listing and reading are not part of
this model. -/
def setSDK : SDK Service where
  NewClient := fun s => s.clientErr
  Buckets := fun _ _ => []
  NewReader := fun _ _ _ => .error (.sdk "storage: object does not exist")
  Create := fun s bucket _ =>
    if bucket ∈ s.existing then (some (.sdk "googleapi: Error 409: conflict"), s)
    else (none, { s with existing := bucket :: s.existing })
  Delete := fun s bucket =>
    if bucket ∈ s.existing then (none, { s with existing := s.existing.filter (fun b => b ≠ bucket) })
    else (some (.sdk "storage: bucket does not exist"), s)
  Attrs := fun s bucket =>
    if bucket ∈ s.existing then .ok { Name := bucket, Labels := [] }
    else .error (.sdk "storage: bucket does not exist")

/-- An SDK without service state: creating a client gives `clientErr`, every
project lists `items`, every object opens as `reader`; no bucket can be created,
deleted or inspected. -/
def fixedSDK (clientErr : error) (items : BucketIterator) (reader : Except GoError Reader) :
    SDK Unit where
  NewClient := fun _ => clientErr
  Buckets := fun _ _ => items
  NewReader := fun _ _ _ => reader
  Create := fun s _ _ => (some (.sdk "googleapi: Error 403: forbidden"), s)
  Delete := fun s _ => (some (.sdk "googleapi: Error 403: forbidden"), s)
  Attrs := fun _ _ => .error (.sdk "googleapi: Error 403: forbidden")

/-- The world before any call, over the stateless service. -/
def start : World Unit := { state := (), trace := [] }

end gcp

/-! ## Properties -/

namespace gcp

theorem record_state {σ : Type} (w : World σ) (ev : Event) : (w.record ev).state = w.state := rfl

theorem NewStorageClientE_eq {σ : Type} (sdk : SDK σ) (w : World σ) :
    NewStorageClientE sdk w = (sdk.NewClient w.state, w.record .NewClient) := by
  unfold NewStorageClientE
  cases sdk.NewClient w.state <;> rfl

/-- After line 36 the error is `iterator.Done`: the loop body is never reached,
whichever value the `if` of line 36 takes. -/
theorem check_eq {σ : Type} (assignCond : Bool) (w : World σ)
    (body : Outcome (String × error) × World σ) :
    FindStorageBucketWithLabelE.check assignCond w body =
      (.returned ("", some (if assignCond then .ErrBucketNotFound else .Done)), w) := by
  cases assignCond <;> simp [FindStorageBucketWithLabelE.check]

/-- The loop ends in its first round, after one `Next`. -/
theorem loop_eq {σ : Type} (assignCond : Bool) (key value : String) (it : BucketIterator)
    (w : World σ) :
    FindStorageBucketWithLabelE.loop assignCond key value it w =
      (.returned ("", some (if assignCond then .ErrBucketNotFound else .Done)),
       w.record .Next) := by
  rw [FindStorageBucketWithLabelE.loop]
  split <;> rw [check_eq]

/-- With a client, `FindStorageBucketWithLabelE` gives the same result for every
listing. -/
theorem find_eq_of_client {σ : Type} (assignCond : Bool) (sdk : SDK σ) (w : World σ)
    (project key value : String) (h : sdk.NewClient w.state = none) :
    FindStorageBucketWithLabelE assignCond sdk w project key value =
      (.returned ("", some (if assignCond then .ErrBucketNotFound else .Done)),
       ((w.record .NewClient).record (.Buckets project)).record .Next) := by
  simp only [FindStorageBucketWithLabelE, NewStorageClientE_eq, h, loop_eq]

theorem ReadFrom_eq (chunks : List (List Byte)) (failure : error) (buf : List Byte) :
    Buffer.ReadFrom buf chunks failure = (buf ++ chunks.flatten, failure) := by
  induction chunks generalizing buf with
  | nil => simp [Buffer.ReadFrom]
  | cons chunk rest ih => simp [Buffer.ReadFrom, ih]

theorem find_eq_of_no_client {σ : Type} (assignCond : Bool) (sdk : SDK σ) (w : World σ)
    (project key value : String) (e : GoError) (h : sdk.NewClient w.state = some e) :
    FindStorageBucketWithLabelE assignCond sdk w project key value =
      (.returned ("", some e), w.record .NewClient) := by
  simp only [FindStorageBucketWithLabelE, NewStorageClientE_eq, h]

/-- The `return contents, nil` of line 85 needs the call of line 83 to return:
when the object is read to its end and `log.Logf` does not return,
`GetStorageObjectContentsE` returns nothing. -/
theorem get_needs_log_return {σ : Type} (logLogf : String → List String → Outcome Unit)
    (sdk : SDK σ) (w : World σ) (bucket key : String) (reader : Reader)
    (hclient : sdk.NewClient w.state = none)
    (hreader : sdk.NewReader w.state bucket key = .ok reader) (hfail : reader.failure = none)
    (hlog : logLogf "Read contents from Storage Bucket: %s, %s" [bucket, key] ≠ .returned ()) :
    ∀ r, (GetStorageObjectContentsE logLogf sdk w bucket key).1 ≠ .returned r := by
  intro r
  simp only [GetStorageObjectContentsE, NewStorageClientE_eq, hclient, record_state, hreader,
    ReadFrom_eq, hfail]
  cases h : logLogf "Read contents from Storage Bucket: %s, %s" [bucket, key] with
  | returned u => exact absurd h hlog
  | fatal e => simp
  | panicked => simp
  | noReturn => simp

end gcp

/-- What `failOnError` does with an `E` form that returned `(v, err)`: it stops the
test with `e` exactly when `err` is `e`, and hands on `v` when `err` is nil. -/
theorem failOnError_of_returned {α : Type} (v : α) (err : error) :
    (∀ e, failOnError (.returned (v, err)) = .fatal e ↔ err = some e) ∧
    (err = none → failOnError (.returned (v, err)) = .returned v) := by
  cases err with
  | none => simp [failOnError]
  | some e0 => simp [failOnError]

/-! ### The claims -/

open gcp terraform

/-- C1 (the code departs from the claim).  The listing is one bucket `logs` that
carries the label `env=prod`, and the search is for `env=prod`: the claim says
the result is `("logs", nil)`.  The code overwrites `err` on line 36 and leaves
the loop before line 42 reads the labels: the result is `("", ErrBucketNotFound)`
when the `if` of line 36 is taken and `("", iterator.Done)` when it is not. -/
theorem FindStorageBucketWithLabelE_misses_first_match (assignCond : Bool) :
    (FindStorageBucketWithLabelE assignCond
        (fixedSDK none [.ok { Name := "logs", Labels := [("env", "prod")] }]
          (.error (.sdk "unused")))
        start "proj" "env" "prod").1 =
      .returned ("", some (if assignCond then .ErrBucketNotFound else .Done)) := by
  rw [find_eq_of_client assignCond _ start "proj" "env" "prod" rfl]

/-- C2 (the code departs from the claim).  The claim has `("", ErrBucketNotFound)`
returned for the empty listing and not for a listing in which the second bucket
carries the label searched for.  The code cannot do both, whichever value the
`if` of line 36 takes: it gives the two listings the same result. -/
theorem FindStorageBucketWithLabelE_not_found_iff_fails (assignCond : Bool) :
    ¬ ((FindStorageBucketWithLabelE assignCond (fixedSDK none [] (.error (.sdk "unused")))
          start "proj" "team" "data").1 = .returned ("", some .ErrBucketNotFound) ∧
       (FindStorageBucketWithLabelE assignCond
          (fixedSDK none
            [.ok { Name := "scratch", Labels := [("team", "web")] },
             .ok { Name := "lake", Labels := [("team", "data")] }]
            (.error (.sdk "unused")))
          start "proj" "team" "data").1 ≠ .returned ("", some .ErrBucketNotFound)) := by
  rw [find_eq_of_client assignCond _ start "proj" "team" "data" rfl,
    find_eq_of_client assignCond _ start "proj" "team" "data" rfl]
  exact fun h => h.2 h.1

/-- C3 (the code departs from the claim).  Once the client is obtained,
`AssertStorageBucketExistsE` reaches its closing brace without a `return`,
whatever `Attrs` gave: when `Attrs` fails with `e`, the error `e` is not
returned. -/
theorem AssertStorageBucketExistsE_drops_attrs_error {σ : Type} (sdk : SDK σ) (w : World σ)
    (name : String) (hclient : sdk.NewClient w.state = none) :
    (AssertStorageBucketExistsE sdk w name).1 = .noReturn ∧
    ∀ e, sdk.Attrs w.state name = .error e →
      (AssertStorageBucketExistsE sdk w name).1 ≠ .returned (some e) := by
  simp [AssertStorageBucketExistsE, NewStorageClientE_eq, hclient]

/-- C3, at the service that holds no bucket and the name `missing`: `Attrs` fails
and the failure is not returned. -/
theorem AssertStorageBucketExistsE_drops_attrs_error_witness :
    setSDK.Attrs { clientErr := none, existing := [] } "missing" =
      .error (.sdk "storage: bucket does not exist") ∧
    (AssertStorageBucketExistsE setSDK
        { state := { clientErr := none, existing := [] }, trace := [] } "missing").1 =
      .noReturn ∧
    (AssertStorageBucketExistsE setSDK
        { state := { clientErr := none, existing := [] }, trace := [] } "missing").1 ≠
      .returned (some (.sdk "storage: bucket does not exist")) :=
  have h := AssertStorageBucketExistsE_drops_attrs_error setSDK
    { state := { clientErr := none, existing := [] }, trace := [] } "missing" rfl
  ⟨rfl, h.1, h.2 _ rfl⟩

/-- C4.  `DestroyE` is `RunTerraformCommandE` on the arguments
`FormatArgs(options.Vars, "destroy", "-force", "-input=false", "-lock=false")`: the
binary is run once (one invocation is added to the trace), on the unchanged
options and on `destroy -force -input=false -lock=false` followed by the flags
of the variables, and what it gives is returned as it is.  For the variables
`a = "1"`, `b = "2"` the arguments are the four fixed ones and one variable flag
for each entry. -/
theorem DestroyE_runs_destroy_once (bin : Binary) (varFlag : String → String → List String)
    (options : Options) (trace : List Invocation) :
    DestroyE bin varFlag options trace =
      RunTerraformCommandE bin options
        (FormatArgs varFlag options.Vars ["destroy", "-force", "-input=false", "-lock=false"])
        trace ∧
    DestroyE bin varFlag options trace =
      (.returned (bin options
          ("destroy" :: "-force" :: "-input=false" :: "-lock=false" ::
            (options.Vars.map (fun kv => varFlag kv.1 kv.2)).flatten)),
       trace ++ [{ options := options,
                   args := "destroy" :: "-force" :: "-input=false" :: "-lock=false" ::
                     (options.Vars.map (fun kv => varFlag kv.1 kv.2)).flatten }]) ∧
    (∀ dir : String,
      (DestroyE bin varFlag { Vars := [("a", "1"), ("b", "2")], TerraformDir := dir } trace).2 =
        trace ++ [{ options := { Vars := [("a", "1"), ("b", "2")], TerraformDir := dir },
                    args := ["destroy", "-force", "-input=false", "-lock=false"] ++
                      varFlag "a" "1" ++ varFlag "b" "2" }]) := by
  refine ⟨rfl, ?_, ?_⟩
  · simp [DestroyE, RunTerraformCommandE, FormatArgs]
  · intro dir
    simp [DestroyE, RunTerraformCommandE, FormatArgs]

/-- C5.  Each of `Destroy`, `FindStorageBucketWithLabel` and
`GetStorageObjectContents`, for every `E` form it may be given and every input,
makes the calls of one run of the `E` form on the same arguments and no other
(the world afterwards is the one the `E` form leaves); and when the `E` form
returns `(v, err)`, it stops the test with `e` exactly when `err` is the
non-nil error `e`, and returns exactly `v` when `err` is nil. -/
theorem convenience_forms_fail_on_error :
    (∀ (destroyE : Options → List Invocation → Outcome (String × error) × List Invocation)
        (options : Options) (trace : List Invocation),
      (Destroy destroyE options trace).2 = (destroyE options trace).2 ∧
      ∀ v err, (destroyE options trace).1 = .returned (v, err) →
        (∀ e, (Destroy destroyE options trace).1 = .fatal e ↔ err = some e) ∧
        (err = none → (Destroy destroyE options trace).1 = .returned v)) ∧
    (∀ (σ : Type)
        (findE : World σ → String → String → String → Outcome (String × error) × World σ)
        (w : World σ) (project key value : String),
      (FindStorageBucketWithLabel findE w project key value).2 =
        (findE w project key value).2 ∧
      ∀ v err, (findE w project key value).1 = .returned (v, err) →
        (∀ e, (FindStorageBucketWithLabel findE w project key value).1 = .fatal e ↔
          err = some e) ∧
        (err = none → (FindStorageBucketWithLabel findE w project key value).1 = .returned v)) ∧
    (∀ (σ : Type) (getE : World σ → String → String → Outcome (List Byte × error) × World σ)
        (w : World σ) (bucket key : String),
      (GetStorageObjectContents getE w bucket key).2 = (getE w bucket key).2 ∧
      ∀ v err, (getE w bucket key).1 = .returned (v, err) →
        (∀ e, (GetStorageObjectContents getE w bucket key).1 = .fatal e ↔ err = some e) ∧
        (err = none → (GetStorageObjectContents getE w bucket key).1 = .returned v)) := by
  refine ⟨?_, ?_, ?_⟩
  · intro destroyE options trace
    refine ⟨rfl, ?_⟩
    intro v err h
    simp only [Destroy, h]
    exact failOnError_of_returned v err
  · intro σ findE w project key value
    refine ⟨rfl, ?_⟩
    intro v err h
    simp only [FindStorageBucketWithLabel, h]
    exact failOnError_of_returned v err
  · intro σ getE w bucket key
    refine ⟨rfl, ?_⟩
    intro v err h
    simp only [GetStorageObjectContents, h]
    exact failOnError_of_returned v err

/-- C5, at the `E` forms of the source.  `Destroy` returns the output of a binary
that succeeds and stops the test with the error of one that fails;
`FindStorageBucketWithLabel` stops the test with the error its `E` form gives
for a listing of one bucket, and returns the name an `E` form hands it;
`GetStorageObjectContents` returns the bytes its `E` form read. -/
theorem convenience_forms_fail_on_error_witness :
    (Destroy (DestroyE (fun _ _ => ("Destroy complete!", none)) (fun k v => ["-var", k ++ "=" ++ v]))
        { Vars := [("a", "1")], TerraformDir := "." } []).1 = .returned "Destroy complete!" ∧
    (Destroy (DestroyE (fun _ _ => ("", some (.sdk "exit status 1"))) (fun k v => ["-var", k ++ "=" ++ v]))
        { Vars := [("a", "1")], TerraformDir := "." } []).1 = .fatal (.sdk "exit status 1") ∧
    (FindStorageBucketWithLabel
        (FindStorageBucketWithLabelE true
          (fixedSDK none [.ok { Name := "logs", Labels := [("env", "prod")] }]
            (.error (.sdk "unused"))))
        start "proj" "env" "prod").1 = .fatal .ErrBucketNotFound ∧
    (FindStorageBucketWithLabel (fun w _ _ _ => (.returned ("lake", none), w))
        start "proj" "team" "data").1 = .returned "lake" ∧
    (GetStorageObjectContents
        (GetStorageObjectContentsE (fun _ _ => .returned ())
          (fixedSDK none [] (.ok { chunks := [[72, 105], [33]], failure := none })))
        start "assets" "greeting.txt").1 = .returned [72, 105, 33] :=
  ⟨((convenience_forms_fail_on_error.1 _ _ _).2 "Destroy complete!" none rfl).2 rfl,
   (((convenience_forms_fail_on_error.1 _ _ _).2 "" (some (.sdk "exit status 1")) rfl).1 _).2 rfl,
   (((convenience_forms_fail_on_error.2.1 Unit _ start "proj" "env" "prod").2 ""
      (some .ErrBucketNotFound)
      (by rw [find_eq_of_client true _ start "proj" "env" "prod" rfl]; rfl)).1 _).2 rfl,
   ((convenience_forms_fail_on_error.2.1 Unit _ start "proj" "team" "data").2 "lake" none
      rfl).2 rfl,
   ((convenience_forms_fail_on_error.2.2 Unit _ start "assets" "greeting.txt").2
      [72, 105, 33] none rfl).2 rfl⟩

/-- C6 (the code departs from the claim).  Over the service as a set of bucket
names, with a client and a name `b` that is not there: `CreateStorageBucketE`
returns nil and `b` is there, `DeleteStorageBucketE` then returns nil and `b` is
gone; `AssertStorageBucketExistsE` ends in the same way after the one and after
the other, at its closing brace, and returns no error once `b` is gone. -/
theorem create_assert_delete_assert (s : Service) (trace : List Event) (project b : String)
    (hclient : s.clientErr = none) (hfresh : b ∉ s.existing) :
    (CreateStorageBucketE setSDK { state := s, trace := trace } project b).1 = .returned none ∧
    b ∈ (CreateStorageBucketE setSDK { state := s, trace := trace } project b).2.state.existing ∧
    (AssertStorageBucketExistsE setSDK
      (CreateStorageBucketE setSDK { state := s, trace := trace } project b).2 b).1 = .noReturn ∧
    (DeleteStorageBucketE setSDK
      (AssertStorageBucketExistsE setSDK
        (CreateStorageBucketE setSDK { state := s, trace := trace } project b).2 b).2 b).1 =
      .returned none ∧
    b ∉ (DeleteStorageBucketE setSDK
      (AssertStorageBucketExistsE setSDK
        (CreateStorageBucketE setSDK { state := s, trace := trace } project b).2 b).2
      b).2.state.existing ∧
    (AssertStorageBucketExistsE setSDK
      (DeleteStorageBucketE setSDK
        (AssertStorageBucketExistsE setSDK
          (CreateStorageBucketE setSDK { state := s, trace := trace } project b).2 b).2
        b).2 b).1 = .noReturn ∧
    ∀ e, (AssertStorageBucketExistsE setSDK
      (DeleteStorageBucketE setSDK
        (AssertStorageBucketExistsE setSDK
          (CreateStorageBucketE setSDK { state := s, trace := trace } project b).2 b).2
        b).2 b).1 ≠ .returned (some e) := by
  simp [CreateStorageBucketE, DeleteStorageBucketE, AssertStorageBucketExistsE,
    NewStorageClientE_eq, World.record, setSDK, hclient, hfresh]

/-- C6, at the empty service, the project `proj` and the bucket `b`. -/
theorem create_assert_delete_assert_witness :
    (AssertStorageBucketExistsE setSDK
      (DeleteStorageBucketE setSDK
        (AssertStorageBucketExistsE setSDK
          (CreateStorageBucketE setSDK
            { state := { clientErr := none, existing := [] }, trace := [] } "proj" "b").2 "b").2
        "b").2 "b").1 = .noReturn :=
  (create_assert_delete_assert { clientErr := none, existing := [] } [] "proj" "b" rfl
    (List.not_mem_nil "b")).2.2.2.2.2.1

/-- C7.  `GetStorageObjectContentsE` returns the bytes of the object: when the
client is obtained, the reader opens and delivers `b` (in whatever chunks) up to
the end of the object, and the call `log.Logf` of line 83 returns, the result is
`(b, nil)`; when obtaining the client, opening the reader or reading fails with
`e`, the result is `("", e)`, whatever `log.Logf` is. -/
theorem GetStorageObjectContentsE_roundtrip {σ : Type}
    (logLogf : String → List String → Outcome Unit) (sdk : SDK σ) (w : World σ)
    (bucket key : String) :
    (∀ (reader : Reader) (b : List Byte), sdk.NewClient w.state = none →
      sdk.NewReader w.state bucket key = .ok reader → reader.failure = none →
      reader.chunks.flatten = b →
      logLogf "Read contents from Storage Bucket: %s, %s" [bucket, key] = .returned () →
      (GetStorageObjectContentsE logLogf sdk w bucket key).1 = .returned (b, none)) ∧
    (∀ e, sdk.NewClient w.state = some e →
      (GetStorageObjectContentsE logLogf sdk w bucket key).1 = .returned ([], some e)) ∧
    (∀ e, sdk.NewClient w.state = none → sdk.NewReader w.state bucket key = .error e →
      (GetStorageObjectContentsE logLogf sdk w bucket key).1 = .returned ([], some e)) ∧
    (∀ (reader : Reader) (e : GoError), sdk.NewClient w.state = none →
      sdk.NewReader w.state bucket key = .ok reader → reader.failure = some e →
      (GetStorageObjectContentsE logLogf sdk w bucket key).1 = .returned ([], some e)) := by
  refine ⟨?_, ?_, ?_, ?_⟩
  · intro reader b hclient hreader hfail hb hlog
    simp [GetStorageObjectContentsE, NewStorageClientE_eq, hclient, record_state, hreader,
      ReadFrom_eq, hfail, hb, hlog]
  · intro e hclient
    simp [GetStorageObjectContentsE, NewStorageClientE_eq, hclient]
  · intro e hclient hreader
    simp [GetStorageObjectContentsE, NewStorageClientE_eq, hclient, record_state, hreader]
  · intro reader e hclient hreader hfail
    simp [GetStorageObjectContentsE, NewStorageClientE_eq, hclient, record_state, hreader,
      ReadFrom_eq, hfail]

/-- C7, at an object whose bytes `72 105 33` arrive in the chunks `72 105` and
`33` with a `log.Logf` that returns, and at a reader that fails after the first
chunk with a `log.Logf` that does not return. -/
theorem GetStorageObjectContentsE_roundtrip_witness :
    (GetStorageObjectContentsE (fun _ _ => .returned ())
        (fixedSDK none [] (.ok { chunks := [[72, 105], [33]], failure := none }))
        start "assets" "greeting.txt").1 = .returned ([72, 105, 33], none) ∧
    (GetStorageObjectContentsE (fun _ _ => .panicked)
        (fixedSDK none [] (.ok { chunks := [[72, 105]], failure := some (.sdk "reset") }))
        start "assets" "greeting.txt").1 = .returned ([], some (.sdk "reset")) :=
  ⟨(GetStorageObjectContentsE_roundtrip (fun _ _ => .returned ())
      (fixedSDK none [] (.ok { chunks := [[72, 105], [33]], failure := none }))
      start "assets" "greeting.txt").1 _ _ rfl rfl rfl rfl rfl,
   (GetStorageObjectContentsE_roundtrip (fun _ _ => .panicked)
      (fixedSDK none [] (.ok { chunks := [[72, 105]], failure := some (.sdk "reset") }))
      start "assets" "greeting.txt").2.2.2 _ _ rfl rfl rfl⟩

/-- C8 (the code departs from the claim).  When the first `Next` fails with an SDK
error, the claim has that error returned.  The code overwrites it on line 36:
the error returned is `ErrBucketNotFound` or `iterator.Done`, never the error
of the iterator. -/
theorem FindStorageBucketWithLabelE_masks_iterator_error (assignCond : Bool) (msg : String)
    (rest : BucketIterator) (project key value : String) :
    (FindStorageBucketWithLabelE assignCond
        (fixedSDK none (.error (.sdk msg) :: rest) (.error (.sdk "unused")))
        start project key value).1 ≠ .returned ("", some (.sdk msg)) := by
  rw [find_eq_of_client assignCond _ start project key value rfl]
  cases assignCond <;> simp

/-- C9 (the code departs from the claim).  For every listing that starts with a
bucket without the label and then the bucket `lake` with the label `team=data`,
the claim has `("lake", nil)` returned.  The code leaves the loop after one
`Next`, before it reaches `lake`, and returns no bucket, whatever follows. -/
theorem FindStorageBucketWithLabelE_stops_before_first_match (assignCond : Bool)
    (following : BucketIterator) :
    FindStorageBucketWithLabelE assignCond
        (fixedSDK none
          (.ok { Name := "scratch", Labels := [("team", "web")] } ::
            .ok { Name := "lake", Labels := [("team", "data")] } :: following)
          (.error (.sdk "unused")))
        start "proj" "team" "data" =
      (.returned ("", some (if assignCond then .ErrBucketNotFound else .Done)),
       { state := (), trace := [.NewClient, .Buckets "proj", .Next] }) := by
  rw [find_eq_of_client assignCond _ start "proj" "team" "data" rfl]
  rfl

/-- C10 (the code departs from the claim).  The claim has two listings, one a
reordering of the other, for which different bucket names are returned.  The
code returns the same for every two listings, and never a bucket name. -/
theorem FindStorageBucketWithLabelE_ignores_listing (assignCond : Bool)
    (listing reordered : BucketIterator) (w : World Unit) (project key value : String) :
    (FindStorageBucketWithLabelE assignCond (fixedSDK none listing (.error (.sdk "unused")))
        w project key value).1 =
      (FindStorageBucketWithLabelE assignCond (fixedSDK none reordered (.error (.sdk "unused")))
        w project key value).1 ∧
    ∀ name, (FindStorageBucketWithLabelE assignCond
        (fixedSDK none listing (.error (.sdk "unused"))) w project key value).1 ≠
      .returned (name, none) := by
  rw [find_eq_of_client assignCond _ w project key value rfl,
    find_eq_of_client assignCond _ w project key value rfl]
  exact ⟨rfl, fun name => by simp⟩

end Terratest
